import Mathlib

/-
Verification of the task-authoring slice of the prefect repository:
`src/prefect/utilities/tasks.py` (`group`, `tags`, `as_task`, `task`).

The ambient context store, the node (Task) constructors and the `toolz.curry`
combinator live outside this slice; they are modelled from the spec's contract
for them (each such definition carries a doc comment starting
"Modelled from the spec:").  Everything else is translated directly from the
Python source.
-/

namespace Prefect

/-- Modelled from the spec: one overlay of the external Context Entity.  Only
the two keys used by this slice (`"_group"`, `"_tags"`) are given dedicated
fields; `other` stands for every remaining ambient key. -/
structure Overlay where
  group : Option String
  tags : Option (Finset String)
  other : List (String × String)

/-- Modelled from the spec: the Context Entity is a stack of overlays,
innermost first. -/
abbrev Context := List Overlay

/-- Modelled from the spec: `context.get("_group", default=None)` — the value
from the nearest overlay defining `"_group"`, else `none`. -/
def Context.get_group? (ctx : Context) : Option String :=
  ctx.findSome? Overlay.group

/-- Modelled from the spec: `context.get("_group", d)` with a string default. -/
def Context.get_groupD (ctx : Context) (d : String) : String :=
  (ctx.get_group?).getD d

/-- Modelled from the spec: `context.get("_tags", d)` with a set default. -/
def Context.get_tagsD (ctx : Context) (d : Finset String) : Finset String :=
  (ctx.findSome? Overlay.tags).getD d

/-- Modelled from the spec: lookup of any ambient key other than `"_group"`
and `"_tags"` through the overlay stack. -/
def Context.get_other (ctx : Context) (k : String) : Option String :=
  ctx.findSome? (fun ov => ov.other.lookup k)

/-- Modelled from the spec: entering a scope of the Context Entity pushes a
new overlay on top of the current composite view. -/
def contextEnter (ov : Overlay) (ctx : Context) : Context := ov :: ctx

/-- Modelled from the spec: `with prefect.context(...)` — runs the body in the
pushed context and, on every exit path (the body's result `β` may encode a
normal return or a raised error), restores the exact prior composite view. -/
def contextScope {β : Type} (ov : Overlay) (body : Context → β × Context)
    (ctx : Context) : β × Context :=
  ((body (contextEnter ov ctx)).1, ctx)

mutual

inductive TaskKind where
  | listColl (xs : List Value)
  | tupleColl (xs : List Value)
  | setColl (xs : List Value)
  | dictColl (kvs : List (String × Value))
  | functionK (fn : Value) (kwargs : List (String × Value))
  | constantK (v : Value)

inductive Task where
  | mk (group : Option String) (tags : Finset String) (kind : TaskKind)

inductive Value where
  | node (t : Task)
  | list (xs : List Value)
  | tuple (xs : List Value)
  | set (xs : List Value)
  | dict (kvs : List (String × Value)) (hasCallMethod : Bool)
  | func (fnId : Nat)
  | funcBadSig (fnId : Nat)
  | const (cId : Nat)

end

def Task.group : Task → Option String
  | .mk g _ _ => g

def Task.tags : Task → Finset String
  | .mk _ ts _ => ts

def Task.kind : Task → TaskKind
  | .mk _ _ k => k

/-- `isinstance(x, prefect.core.Task)` together with the use of `x` at that
type: the node when `x` is one. -/
def Value.asNode? : Value → Option Task
  | .node t => some t
  | _ => none

/-- `isinstance(x, list)` together with the elements. -/
def Value.asList? : Value → Option (List Value)
  | .list xs => some xs
  | _ => none

/-- `isinstance(x, tuple)` together with the elements. -/
def Value.asTuple? : Value → Option (List Value)
  | .tuple xs => some xs
  | _ => none

/-- `isinstance(x, set)` together with the elements. -/
def Value.asSet? : Value → Option (List Value)
  | .set xs => some xs
  | _ => none

/-- `isinstance(x, dict)` together with the key/value pairs. -/
def Value.asDict? : Value → Option (List (String × Value))
  | .dict kvs _ => some kvs
  | _ => none

/-- `callable(x)`: graph nodes define `__call__` (the functional API calls
them), plain functions are callable, and a mapping object may also carry a
call method. -/
def Value.callable : Value → Bool
  | .node _ => true
  | .dict _ c => c
  | .func _ => true
  | .funcBadSig _ => true
  | _ => false

/-- `isinstance(x, dict)` as a plain predicate. -/
def Value.isMapping : Value → Bool
  | .dict _ _ => true
  | _ => false

/-- Modelled from the spec: whether a callable's signature is structurally
compatible with the Task run-method calling convention (§4.5); `funcBadSig`
stands for a callable that violates it. -/
def Value.runSigOk : Value → Bool
  | .funcBadSig _ => false
  | _ => true

/-- Errors that graph construction can raise.  `unsupportedType` is listed so
that its absence from `as_task` is a provable fact, not a vacuity. -/
inductive CoreError where
  | unsupportedType
  | invalidKeyword (k : String)
  | invalidSignature
deriving DecidableEq

/-- Modelled from the spec: every node constructor, at the moment of creation,
reads `context.get("_group", default=None)` and `context.get("_tags", set())`
and copies them onto the new node (§4.4); the node type hierarchy itself is an
external collaborator of this slice. -/
def mkTask (ctx : Context) (kind : TaskKind) : Task :=
  .mk ctx.get_group? (ctx.get_tagsD ∅) kind

/-- Modelled from the spec: `prefect.tasks.core.collections.List().bind(*x)`
produces a "List" collection node from the positional elements, stamped per
§4.4. -/
def List_bind (ctx : Context) (xs : List Value) : Task :=
  mkTask ctx (.listColl xs)

/-- Modelled from the spec: `Tuple().bind(*x)`. -/
def Tuple_bind (ctx : Context) (xs : List Value) : Task :=
  mkTask ctx (.tupleColl xs)

/-- Modelled from the spec: `Set().bind(*x)`. -/
def Set_bind (ctx : Context) (xs : List Value) : Task :=
  mkTask ctx (.setColl xs)

/-- A Python identifier: nonempty, first character alphabetic or underscore,
the rest alphanumeric or underscore. -/
def isValidIdent (s : String) : Bool :=
  match s.toList with
  | [] => false
  | c :: cs => (c.isAlpha || c = '_') && cs.all (fun d => d.isAlphanum || d = '_')

/-- Modelled from the spec: `Dict().bind(**x)` passes the mapping's pairs as
keyword bindings; a key that is not a valid identifier is a caller error
raised by this binder, otherwise a "Dict" collection node is produced. -/
def Dict_bind (ctx : Context) (kvs : List (String × Value)) : Except CoreError Task :=
  match kvs.find? (fun kv => !isValidIdent kv.1) with
  | some kv => .error (.invalidKeyword kv.1)
  | none => .ok (mkTask ctx (.dictColl kvs))

/-- Modelled from the spec: the wrapping stage of `FunctionTask(fn=x,
**kwargs)` once signature validation has passed — the callable is stored
without being invoked, with the construction keyword arguments forwarded.
The validating constructor is `FunctionTask_create`. -/
def FunctionTask_init (ctx : Context) (fn : Value)
    (kwargs : List (String × Value)) : Task :=
  mkTask ctx (.functionK fn kwargs)

/-- Modelled from the spec: the full `FunctionTask` constructor — it
validates the callable's signature against the run-method convention and
raises a signature-validation error on violation (§4.5, §7; the source
`task` docstring's `ValueError`), else wraps the callable. -/
def FunctionTask_create (ctx : Context) (fn : Value)
    (kwargs : List (String × Value)) : Except CoreError Task :=
  if fn.runSigOk then .ok (FunctionTask_init ctx fn kwargs)
  else .error .invalidSignature

/-- Modelled from the spec: `Constant(value=x)` holds the value verbatim. -/
def Constant_init (ctx : Context) (v : Value) : Task :=
  mkTask ctx (.constantK v)

/-- The effective group name computed by `group(name, append)` before the
scope is entered: with `append`, the current group (default `""`) is read
from context and, when non-empty (Python truthiness), prefixed with `"/"`. -/
def group_name (name : String) (append : Bool) (ctx : Context) : String :=
  if append then
    let current_group := ctx.get_groupD ""
    if current_group ≠ "" then current_group ++ "/" ++ name else name
  else name

/-- The overlay pushed by `with prefect.context(_group=name)`: only the
`"_group"` key is set. -/
def group_overlay (name : String) (append : Bool) (ctx : Context) : Overlay :=
  ⟨some (group_name name append ctx), none, []⟩

/-- The context seen by the block inside `group(name, append)`. -/
def group_enter (name : String) (append : Bool) (ctx : Context) : Context :=
  contextEnter (group_overlay name append ctx) ctx

/-- `group(name, append)` as a scoped operation: computes the effective name,
then runs the body under `with prefect.context(_group=name)`. -/
def group_scope {β : Type} (name : String) (append : Bool)
    (body : Context → β × Context) (ctx : Context) : β × Context :=
  contextScope (group_overlay name append ctx) body ctx

/-- `tags_set = set(tags); tags_set.update(prefect.context.get("_tags", set()))`. -/
def tags_set (tagList : List String) (ctx : Context) : Finset String :=
  tagList.toFinset ∪ ctx.get_tagsD ∅

/-- The overlay pushed by `with prefect.context(_tags=tags_set)`: only the
`"_tags"` key is set. -/
def tags_overlay (tagList : List String) (ctx : Context) : Overlay :=
  ⟨none, some (tags_set tagList ctx), []⟩

/-- The context seen by the block inside `tags(*tags)`. -/
def tags_enter (tagList : List String) (ctx : Context) : Context :=
  contextEnter (tags_overlay tagList ctx) ctx

/-- `tags(*tags)` as a scoped operation. -/
def tags_scope {β : Type} (tagList : List String)
    (body : Context → β × Context) (ctx : Context) : β × Context :=
  contextScope (tags_overlay tagList ctx) body ctx

/-- `as_task(x)`: the type-directed dispatch chain of the source, each
`isinstance` check tried in order, then `callable(x)`, then the constant
catch-all.  Only the Dict binder can raise. -/
def as_task (ctx : Context) (x : Value) : Except CoreError Task :=
  match x.asNode? with
  | some t => .ok t
  | none =>
    match x.asList? with
    | some xs => .ok (List_bind ctx xs)
    | none =>
      match x.asTuple? with
      | some xs => .ok (Tuple_bind ctx xs)
      | none =>
        match x.asSet? with
        | some xs => .ok (Set_bind ctx xs)
        | none =>
          match x.asDict? with
          | some kvs => Dict_bind ctx kvs
          | none =>
            if x.callable then FunctionTask_create ctx x []
            else .ok (Constant_init ctx x)

theorem mkTask_group_group_enter (n : String) (a : Bool) (ctx : Context)
    (kind : TaskKind) :
    (mkTask (group_enter n a ctx) kind).group = some (group_name n a ctx) := rfl

/-- Claim C1: every annotation scope (`group` or `tags`) restores the ambient
context exactly on every exit path of the enclosed block — the body is an
arbitrary context transformer whose `Except` result covers normal returns and
raised errors alike — and in particular a node created after the scope exits
sees the pre-entry group. -/
theorem scope_restoration_all_exit_paths (name : String) (append : Bool)
    (tagList : List String) (ctx : Context) (kind : TaskKind)
    (body body2 : Context → Except Nat Unit × Context) :
    (group_scope name append body ctx).2 = ctx
    ∧ (tags_scope tagList body2 ctx).2 = ctx
    ∧ (group_scope "x" false
        (fun c => ((Except.error 0 : Except Nat Unit), c)) ctx).2 = ctx
    ∧ (mkTask (group_scope name append body ctx).2 kind).group = ctx.get_group? :=
  ⟨rfl, rfl, rfl, rfl⟩

/-- Claim C9: `group(n)` with the default `append = false` sets the ambient
group to exactly `n`, overriding any enclosing group; nesting `group "a"` then
`group "b"` stamps `"b"`, not `"a/b"`. -/
theorem group_override_no_append (n : String) (ctx : Context) (kind : TaskKind) :
    (mkTask (group_enter n false ctx) kind).group = some n
    ∧ (mkTask (group_enter "b" false (group_enter "a" false ctx)) kind).group
        = some "b" :=
  ⟨rfl, rfl⟩

/-- Claim C3: `group(n, append := true)` sets the effective group to
`current ++ "/" ++ n` when the active group is a non-empty string and to `n`
when there is no active group (or it is empty); nesting `group "math"` then
`group "functions"` with append stamps `"math/functions"`. -/
theorem group_append_composition (n : String) (ctx : Context) (kind : TaskKind) :
    (ctx.get_groupD "" = "" →
        (mkTask (group_enter n true ctx) kind).group = some n)
    ∧ (ctx.get_groupD "" ≠ "" →
        (mkTask (group_enter n true ctx) kind).group
          = some (ctx.get_groupD "" ++ "/" ++ n))
    ∧ (mkTask (group_enter "functions" true (group_enter "math" false ctx))
        kind).group = some "math/functions" := by
  refine ⟨fun h => ?_, fun h => ?_, ?_⟩
  · rw [mkTask_group_group_enter]
    simp [group_name, h]
  · rw [mkTask_group_group_enter]
    simp [group_name, h]
  · rw [mkTask_group_group_enter]
    have h : (group_enter "math" false ctx).get_groupD "" = "math" := rfl
    simp [group_name, h]

/-- Witness for C3 at concrete inputs: no enclosing group gives `"x"`, an
enclosing group `"m"` gives `"m/f"`. -/
theorem group_append_composition_witness :
    (mkTask (group_enter "x" true ([] : Context))
        (.constantK (.const 0))).group = some "x"
    ∧ (mkTask (group_enter "f" true (group_enter "m" false ([] : Context)))
        (.constantK (.const 0))).group = some "m/f" := by
  constructor
  · exact (group_append_composition "x" [] (.constantK (.const 0))).1 rfl
  · have h := (group_append_composition "f" (group_enter "m" false [])
      (.constantK (.const 0))).2.1 (by decide)
    simpa using h

/-- Claim C4: inside `tags(t1, ..., tn)` the effective ambient tag set is the
union of the given tags (duplicates collapsed) with the enclosing active tag
set; a node created inside carries it; the effective set is always a superset
of the enclosing one; and exiting the scope restores the enclosing tag set
exactly. -/
theorem tags_accumulate_and_restore (tagList : List String) (ctx : Context)
    (kind : TaskKind) (body : Context → Except Nat Unit × Context) :
    (tags_enter tagList ctx).get_tagsD ∅ = tagList.toFinset ∪ ctx.get_tagsD ∅
    ∧ (mkTask (tags_enter tagList ctx) kind).tags
        = tagList.toFinset ∪ ctx.get_tagsD ∅
    ∧ ctx.get_tagsD ∅ ⊆ (tags_enter tagList ctx).get_tagsD ∅
    ∧ (tags_scope tagList body ctx).2 = ctx := by
  refine ⟨rfl, rfl, ?_, rfl⟩
  show ctx.get_tagsD ∅ ⊆ tagList.toFinset ∪ ctx.get_tagsD ∅
  exact Finset.subset_union_right

/-- Witness for C4 at concrete inputs: `tags("b")` inside an ambient tag set
`{"a"}` yields `{"a", "b"}` (as a superset of `{"a"}`). -/
theorem tags_accumulate_and_restore_witness :
    Context.get_tagsD [⟨none, some {"a"}, []⟩] ∅
      ⊆ Context.get_tagsD (tags_enter ["b"] [⟨none, some {"a"}, []⟩]) ∅ :=
  (tags_accumulate_and_restore ["b"] [⟨none, some {"a"}, []⟩]
    (.constantK (.const 0)) (fun c => (Except.ok (), c))).2.2.1

/-- Claim C10: the `group` scope pushes an overlay that sets only the
`"_group"` key — `"_tags"` and every other ambient key read the same inside
the scope as outside — and symmetrically the `tags` scope sets only
`"_tags"`. -/
theorem scopes_set_only_own_key (name : String) (append : Bool)
    (tagList : List String) (ctx : Context) (k : String) :
    (group_enter name append ctx).get_tagsD ∅ = ctx.get_tagsD ∅
    ∧ (group_enter name append ctx).get_other k = ctx.get_other k
    ∧ (tags_enter tagList ctx).get_group? = ctx.get_group?
    ∧ (tags_enter tagList ctx).get_other k = ctx.get_other k :=
  ⟨rfl, rfl, rfl, rfl⟩

/-- Claim C2: `as_task` is total and dispatches by type in the source's exact
order — node, list, tuple, set, mapping, callable, constant catch-all — so it
never raises an "unsupported type" error; a callable that is already a graph
node resolves via the node branch, and a value matching both the mapping and
the callable checks resolves via the mapping (Dict) branch; any error it
returns originates downstream in a node constructor — the Dict keyword binder
or the Function constructor's signature validation — and propagates
unmodified. -/
theorem as_task_total_dispatch_order (ctx : Context) (v : Value) (t : Task)
    (xs : List Value) (kvs : List (String × Value)) (c : Bool) (i : Nat) :
    (as_task ctx (.node t) = .ok t ∧ Value.callable (.node t) = true)
    ∧ as_task ctx (.list xs) = .ok (List_bind ctx xs)
    ∧ as_task ctx (.tuple xs) = .ok (Tuple_bind ctx xs)
    ∧ as_task ctx (.set xs) = .ok (Set_bind ctx xs)
    ∧ (as_task ctx (.dict kvs c) = Dict_bind ctx kvs
        ∧ Value.isMapping (.dict kvs true) = true
        ∧ Value.callable (.dict kvs true) = true)
    ∧ as_task ctx (.func i) = .ok (FunctionTask_init ctx (.func i) [])
    ∧ (as_task ctx (.funcBadSig i) = FunctionTask_create ctx (.funcBadSig i) []
        ∧ as_task ctx (.funcBadSig i) = .error .invalidSignature
        ∧ Value.callable (.funcBadSig i) = true)
    ∧ as_task ctx (.const i) = .ok (Constant_init ctx (.const i))
    ∧ as_task ctx v ≠ .error .unsupportedType
    ∧ (∀ e, as_task ctx v = .error e →
        (v.isMapping = true ∧ ∃ k, e = .invalidKeyword k)
        ∨ (v.callable = true ∧ e = .invalidSignature)) := by
  refine ⟨⟨rfl, rfl⟩, rfl, rfl, rfl, ⟨rfl, rfl, rfl⟩, rfl, ⟨rfl, rfl, rfl⟩,
    rfl, ?_, ?_⟩
  · cases v with
    | node t' => simp [as_task, Value.asNode?]
    | list ys => simp [as_task, Value.asNode?, Value.asList?]
    | tuple ys =>
        simp [as_task, Value.asNode?, Value.asList?, Value.asTuple?]
    | set ys =>
        simp [as_task, Value.asNode?, Value.asList?, Value.asTuple?,
          Value.asSet?]
    | dict kvs' c' =>
        simp only [as_task, Value.asNode?, Value.asList?, Value.asTuple?,
          Value.asSet?, Value.asDict?, Dict_bind]
        cases h : kvs'.find? (fun kv => !isValidIdent kv.1) with
        | none => simp
        | some kv => simp
    | func j =>
        simp [as_task, Value.asNode?, Value.asList?, Value.asTuple?,
          Value.asSet?, Value.asDict?, Value.callable, FunctionTask_create,
          Value.runSigOk]
    | funcBadSig j =>
        simp [as_task, Value.asNode?, Value.asList?, Value.asTuple?,
          Value.asSet?, Value.asDict?, Value.callable, FunctionTask_create,
          Value.runSigOk]
    | const j =>
        simp [as_task, Value.asNode?, Value.asList?, Value.asTuple?,
          Value.asSet?, Value.asDict?, Value.callable]
  · intro e he
    cases v with
    | node t' => simp [as_task, Value.asNode?] at he
    | list ys => simp [as_task, Value.asNode?, Value.asList?] at he
    | tuple ys =>
        simp [as_task, Value.asNode?, Value.asList?, Value.asTuple?] at he
    | set ys =>
        simp [as_task, Value.asNode?, Value.asList?, Value.asTuple?,
          Value.asSet?] at he
    | dict kvs' c' =>
        refine Or.inl ⟨rfl, ?_⟩
        simp only [as_task, Value.asNode?, Value.asList?, Value.asTuple?,
          Value.asSet?, Value.asDict?, Dict_bind] at he
        cases h : kvs'.find? (fun kv => !isValidIdent kv.1) with
        | none => rw [h] at he; simp at he
        | some kv =>
            rw [h] at he
            simp at he
            exact ⟨kv.1, he.symm⟩
    | func j =>
        simp [as_task, Value.asNode?, Value.asList?, Value.asTuple?,
          Value.asSet?, Value.asDict?, Value.callable, FunctionTask_create,
          Value.runSigOk] at he
    | funcBadSig j =>
        refine Or.inr ⟨rfl, ?_⟩
        simp only [as_task, Value.asNode?, Value.asList?, Value.asTuple?,
          Value.asSet?, Value.asDict?, Value.callable, FunctionTask_create,
          Value.runSigOk] at he
        simp at he
        exact he.symm
    | const j =>
        simp [as_task, Value.asNode?, Value.asList?, Value.asTuple?,
          Value.asSet?, Value.asDict?, Value.callable] at he

/-- Witness for C2 at concrete inputs: a mapping that carries a call method
dispatches to the Dict branch, the binder's invalid-keyword error at key
`"1a"` is traced back to the mapping branch, and a callable with a bad run
signature surfaces the Function constructor's error. -/
theorem as_task_total_dispatch_order_witness :
    Value.isMapping (.dict [("1a", Value.const 0)] false) = true
    ∧ as_task [] (.dict [("a", Value.const 0)] true)
        = Dict_bind [] [("a", Value.const 0)]
    ∧ as_task [] (.funcBadSig 0) = .error .invalidSignature := by
  refine ⟨?_, ?_, ?_⟩
  · have h := (as_task_total_dispatch_order []
      (.dict [("1a", Value.const 0)] false)
      (.mk none ∅ (.constantK (.const 0))) [] [] false 0).2.2.2.2.2.2.2.2.2
      (.invalidKeyword "1a") rfl
    rcases h with h | h
    · exact h.1
    · exact absurd h.2 (by decide)
  · exact (as_task_total_dispatch_order [] (.const 0)
      (.mk none ∅ (.constantK (.const 0))) [] [("a", Value.const 0)] true
      0).2.2.2.2.1.1
  · exact (as_task_total_dispatch_order [] (.const 0)
      (.mk none ∅ (.constantK (.const 0))) [] [] false 0).2.2.2.2.2.2.1.2.1

/-- Claim C7: `as_task` returns an existing graph node unchanged, and is
idempotent — feeding its (node) result back in yields the same result, stated
with `Except.bind` so that the error case is covered as well. -/
theorem as_task_identity_idempotent (ctx : Context) (v : Value) (t : Task) :
    as_task ctx (.node t) = .ok t
    ∧ (as_task ctx v).bind (fun u => as_task ctx (.node u)) = as_task ctx v := by
  refine ⟨rfl, ?_⟩
  cases h : as_task ctx v with
  | error e => rfl
  | ok u => rfl

/-- Claim C8: a mapping input reaches the Dict branch of `as_task` untouched:
the result is exactly what the keyword binder returns — a "Dict" collection
node from the key/value pairs when every key is a valid identifier, and the
binder's own invalid-keyword error otherwise, never caught or translated by
`as_task`. -/
theorem as_task_mapping_dict_bind (ctx : Context)
    (kvs : List (String × Value)) (c : Bool) :
    as_task ctx (.dict kvs c) = Dict_bind ctx kvs
    ∧ (kvs.all (fun kv => isValidIdent kv.1) = true →
        Dict_bind ctx kvs = .ok (mkTask ctx (.dictColl kvs)))
    ∧ (∀ kv, kvs.find? (fun kv => !isValidIdent kv.1) = some kv →
        Dict_bind ctx kvs = .error (.invalidKeyword kv.1)) := by
  refine ⟨rfl, fun hall => ?_, fun kv hfind => ?_⟩
  · have hnone : kvs.find? (fun kv => !isValidIdent kv.1) = none := by
      rw [List.find?_eq_none]
      intro x hx
      have := List.all_eq_true.mp hall x hx
      simp_all
    simp [Dict_bind, hnone]
  · simp [Dict_bind, hfind]

/-- Witness for C8 at concrete inputs: key `"a"` is a valid identifier and
binds, key `"1a"` is not and raises. -/
theorem as_task_mapping_dict_bind_witness :
    Dict_bind [] [("a", Value.const 0)]
      = .ok (mkTask [] (.dictColl [("a", Value.const 0)]))
    ∧ Dict_bind [] [("1a", Value.const 0)]
      = .error (.invalidKeyword "1a") := by
  constructor
  · exact (as_task_mapping_dict_bind [] [("a", Value.const 0)] false).2.1
      (by decide)
  · exact (as_task_mapping_dict_bind [] [("1a", Value.const 0)] false).2.2
      ("1a", Value.const 0) rfl

end Prefect
